import Mathlib

/-!
Shallow embedding of `internal/client/networking.go` of the caplance
repository (a failover/health client for a load-balancing coordinator).

The Go file coordinates several loops over a shared lifecycle state
(`Active`, `Paused`, `Deregistering`): a control-session reader
(`manageBalancerConnection`), a heartbeat loop (`sendHealth`), a raw
packet capture loop (`listen`), a pool of relay workers
(`handlePackets`), plus device resolution (`findDevice`), VIP
attachment/detachment (`attachVIP`/`detachVIP`), outbound lifecycle
commands (`pause`/`resume`/`deregister`) and the shared shutdown
procedure (`gracefulStop`).

OS-level collaborators (pcap device enumeration, netlink calls, the raw
socket, the control session reader/writer) are modelled as explicit
inputs: the list of devices a `pcap.FindAllDevs` call would return, the
`Except`-valued results of netlink lookups, the sequence of outcomes of
the blocking raw reads, and the success/failure of each raw transmit.
Every function below is translated from the Go source; effects
(outbound control-protocol lines, handle closes, VIP detachment,
process exit) are made visible as explicit event traces.
-/

namespace Caplance

/-- The client lifecycle state (`Active`, `Paused`, `Deregistering`),
shared by every loop of the Go client. -/
inductive ClientState where
  | Active
  | Paused
  | Deregistering
deriving DecidableEq, BEq, Repr

open ClientState

/-- Observable effects of the client code: outbound control-session
lines (`comm.WriteLine`), closing the control session (`comm.Close`),
closing the capture handle (`dataListener.Close`), the VIP detachment
attempt (`detachVIP`), logging a recovered in-flight failure, and
process termination (`os.Exit(0)`). -/
inductive Effect where
  | sendLine (msg : String)
  | closeComm
  | closeData
  | detachAttempt
  | logRecovered
  | exitProcess
deriving DecidableEq, BEq, Repr

/-- Function deregister (networking.go lines 192-195): sets the state to
`Deregistering` and writes `DEREGISTER <name>` on the control session.
The `WriteLine` error value is returned to the caller unchanged; it is
not modelled beyond the visible send. -/
def deregister (name : String) : ClientState × List Effect :=
  (Deregistering, [Effect.sendLine ("DEREGISTER " ++ name)])

/-- Function gracefulStop (networking.go lines 197-208): if the state is not
already `Deregistering`, call `deregister`; then close the control
session, close the capture handle, attempt VIP detachment, log any
in-flight failure picked up by `recover()` (modelled by the `inFlight`
flag) and terminate the process. Returns the final state and the trace
of effects in program order. -/
def gracefulStop (s : ClientState) (name : String) (inFlight : Bool) :
    ClientState × List Effect :=
  let (s1, pre) :=
    if s ≠ Deregistering then deregister name else (s, [])
  (s1, pre ++ [Effect.closeComm, Effect.closeData, Effect.detachAttempt]
      ++ (if inFlight then [Effect.logRecovered] else [])
      ++ [Effect.exitProcess])

/-- Function pause (networking.go lines 210-215): if the state is already
`Paused`, fail locally without sending; otherwise send
`PAUSE <name>` (whose `WriteLine` result `w` is returned unchanged).
The state is never written. -/
def pause (s : ClientState) (name : String) (w : Except String Unit) :
    ClientState × Except String Unit × List Effect :=
  if s = Paused then
    (s, Except.error "cannot pause an already paused client", [])
  else
    (s, w, [Effect.sendLine ("PAUSE " ++ name)])

/-- Function resume (networking.go lines 217-222): if the state is already
`Active`, fail locally without sending; otherwise send
`RESUME <name>`. The state is never written. -/
def resume (s : ClientState) (name : String) (w : Except String Unit) :
    ClientState × Except String Unit × List Effect :=
  if s = Active then
    (s, Except.error "cannot resume an already active client", [])
  else
    (s, w, [Effect.sendLine ("RESUME " ++ name)])

/-- Go function strings.Split(s, " ") on the character list of `s`:
splits around every single space and keeps empty substrings, so the
result is never the empty list (the empty string yields one empty
token). -/
def splitTokens : List Char → List String
  | [] => [""]
  | c :: rest =>
      if c = ' ' then "" :: splitTokens rest
      else
        match splitTokens rest with
        | [] => [String.mk [c]]
        | t :: ts => String.mk (c :: t.toList) :: ts

/-- Space-separated tokens of a control-session line, i.e. the Go
expression strings.Split(message, " "). -/
def tokenize (msg : String) : List String :=
  splitTokens msg.toList

/-- First space-separated token of a control-session line, i.e. the Go
expression strings.Split(message, " ")[0] (Go strings.Split never
returns an empty slice, so indexing is safe; `headD ""` is exact). -/
def firstToken (msg : String) : String :=
  (tokenize msg).headD ""

/-- One iteration of the control reader `manageBalancerConnection`
(networking.go lines 57-93) on a successfully read line `msg`:
tokenize on spaces and dispatch on the first token. Returns the new
state and whether the iteration invoked `gracefulStop` and returned
(ending the loop). `INVALID`, `HEALTHACK` (with or without a status
code), and any unrecognized first token only log. -/
def processMessage (s : ClientState) (msg : String) : ClientState × Bool :=
  let tokens := tokenize msg
  if tokens.length < 1 then (s, false)
  else
    let t := tokens.headD ""
    if t = "INVALID" then (s, false)
    else if t = "DEREGISTERED" then (Deregistering, true)
    else if t = "PAUSED" then (Paused, false)
    else if t = "RESUMED" then (Active, false)
    else if t = "HEALTHACK" then (s, false)
    else (s, false)

/-! ## Device resolution (`findDevice`, networking.go lines 18-40) -/

/-- One address/netmask pair configured on a pcap device, IPv4
addresses modelled as 32-bit naturals. -/
structure DevAddress where
  ip : Nat
  mask : Nat
deriving DecidableEq, Repr

/-- A pcap device as returned by `pcap.FindAllDevs`: a name and its
configured address/netmask pairs. -/
structure Device where
  name : String
  addresses : List DevAddress
deriving DecidableEq, Repr

/-- The Go test ipNet.Contains(ip) on the IPNet built from an address and its netmask:
the target masked with the netmask equals the address masked with the
netmask. -/
def addrContains (a : DevAddress) (target : Nat) : Bool :=
  target &&& a.mask = a.ip &&& a.mask

/-- Whether some configured address of device `d` has `target` in its
subnet (the inner loop of `findDevice` finds a match on `d`). -/
def devMatches (target : Nat) (d : Device) : Bool :=
  d.addresses.any (fun a => addrContains a target)

/-- Error string of `findDevice` when two distinct devices match. -/
def ambiguousMsg : String :=
  "multiple devices on the same subnet. VIP cannot be assigned"

/-- Error string of `findDevice` when no device matches. -/
def noMatchMsg : String :=
  "no device on same subnet as VIP. VIP cannot be assigned"

/-- Inner loop of `findDevice` over the addresses of one device named
`name`, carrying the `foundDevice` accumulator: a matching address
either records this device (if none was recorded), is ignored (same
device already recorded), or aborts with the ambiguity error (a
different device was recorded). -/
def scanAddresses (target : Nat) (name : String) :
    String → List DevAddress → Except String String
  | found, [] => Except.ok found
  | found, a :: rest =>
      if addrContains a target then
        if found = "" then scanAddresses target name name rest
        else if found ≠ name then Except.error ambiguousMsg
        else scanAddresses target name found rest
      else scanAddresses target name found rest

/-- Outer loop of `findDevice` over all devices, threading the
`foundDevice` accumulator; after the loop, an empty accumulator means
no device matched. -/
def findLoop (target : Nat) : String → List Device → Except String String
  | found, [] =>
      if found = "" then Except.error noMatchMsg else Except.ok found
  | found, d :: rest =>
      match scanAddresses target d.name found d.addresses with
      | Except.error e => Except.error e
      | Except.ok f => findLoop target f rest

/-- Function findDevice (networking.go lines 18-40) given the device list that
`pcap.FindAllDevs` returned (the enumeration-failure path merely
propagates that error and is outside this model): starts with an empty
`foundDevice` accumulator. -/
def findDevice (target : Nat) (devices : List Device) : Except String String :=
  findLoop target "" devices

/-- The device-resolution policy as the spec states it: collect every
device whose subnet contains the target; zero matches fail with the
no-matching-device error, matches naming more than one distinct device
fail with the ambiguity error, otherwise the single matching device is
returned. Used only to compare against `findDevice`. -/
def specFindDevice (target : Nat) (devices : List Device) :
    Except String String :=
  match (devices.filter (devMatches target)).map Device.name with
  | [] => Except.error noMatchMsg
  | n :: rest =>
      if rest.all (fun m => m == n) then Except.ok n
      else Except.error ambiguousMsg

/-! ## Capture loop (`listen`, networking.go lines 105-131) and
relay workers (`handlePackets`, networking.go lines 166-190) -/

/-- A pooled packet buffer: `size` meaningful bytes inside a
fixed-capacity `payload` (bytes as naturals). -/
structure rawPacket where
  size : Nat
  payload : List Nat
deriving DecidableEq, Repr

/-- Events of the capture loop `listen`: acquiring a buffer from the
pool (`pool.Get`), a blocking raw read attempt
(`dataListener.ReadFrom`), enqueueing the filled buffer on `c.packets`,
invoking the shutdown procedure, returning an error to the caller, and
returning normally. -/
inductive LEvent where
  | acquire
  | rawRead
  | enqueue (size : Nat)
  | invokeShutdown
  | returnError
  | returnOk
deriving DecidableEq, BEq, Repr

/-- The main loop of `listen` (networking.go lines 120-128), driven by
the sequence of outcomes of the blocking raw reads for the iterations
that run: `some n` is a successful read of `n` bytes, `none` a read
error. Each iteration acquires a buffer from the pool and reads into
it; on a read error the function returns the error to its caller
immediately (the acquired buffer is neither enqueued nor put back); on
success it records `size` and enqueues the buffer. An exhausted list
models the state leaving `Active`/`Paused`, where the loop ends and
`listen` returns `nil`. -/
def listenTrace : List (Option Nat) → List LEvent
  | [] => [LEvent.returnOk]
  | none :: _ => [LEvent.acquire, LEvent.rawRead, LEvent.returnError]
  | some n :: rest =>
      LEvent.acquire :: LEvent.rawRead :: LEvent.enqueue n :: listenTrace rest

/-- Number of `pool.Get` calls the `listen` loop performs on a run with
read outcomes `reads` (one per iteration entered). -/
def listenAcquires (reads : List (Option Nat)) : Nat :=
  (listenTrace reads).count LEvent.acquire

/-- Number of buffers the `listen` loop hands to `c.packets` on a run
with read outcomes `reads`; each such buffer is dequeued by exactly one
relay worker, which calls `pool.Put` on it exactly once (see
`handlePacketsStep`), so this is also the number of `pool.Put` calls of
the whole pipeline. -/
def listenEnqueues (reads : List (Option Nat)) : Nat :=
  (listenTrace reads).countP (fun e => match e with
    | LEvent.enqueue _ => true
    | _ => false)

/-- Whether the `listen` run with read outcomes `reads` ended because a
raw read failed (rather than because the state left
`Active`/`Paused`). -/
def endsInReadError : List (Option Nat) → Bool
  | [] => false
  | none :: _ => true
  | some _ :: rest => endsInReadError rest

/-- Events of one relay-worker iteration: the raw transmit
(`syscall.Sendto` of the given bytes), the warning log on a failed
transmit, and returning the buffer to the pool (`pool.Put`). -/
inductive WEvent where
  | transmit (bytes : List Nat)
  | logWarn
  | release
deriving DecidableEq, BEq, Repr

/-- One iteration of a relay worker's loop (networking.go lines
181-189) on the dequeued buffer `p`, with `sendOk` the outcome of the
raw `Sendto`: transmit `p.payload[:p.size]`, log on failure, and put
the buffer back in the pool unconditionally. -/
def handlePacketsStep (p : rawPacket) (sendOk : Bool) : List WEvent :=
  WEvent.transmit (p.payload.take p.size) ::
    (if sendOk then [] else [WEvent.logWarn]) ++ [WEvent.release]

/-- Go method net.IP.To4 on an address modelled as its byte list: a 4-byte
address is returned as is; a 16-byte IPv4-in-IPv6 address (ten zero
bytes then `0xff, 0xff`) is shortened to its last four bytes; anything
else yields `none`. -/
def ipTo4 (ip : List Nat) : Option (List Nat) :=
  if ip.length = 4 then some ip
  else if ip.length = 16 ∧ ip.take 10 = List.replicate 10 0 ∧
      ip.get? 10 = some 255 ∧ ip.get? 11 = some 255 then
    some (ip.drop 12)
  else none

/-- Worker startup (networking.go lines 166-179): after opening the raw
socket, panic if `c.vip.To4()` is `nil`; otherwise the per-worker
destination address is built by copying `c.vip[:4]`, the first four
bytes of the stored representation. -/
def handlePacketsInit (vip : List Nat) : Except String (List Nat) :=
  match ipTo4 vip with
  | none => Except.error "vip is not ipv4"
  | some _ => Except.ok (vip.take 4)

/-! ## VIP attachment and detachment (networking.go lines 146-164) -/

/-- A netlink link handle (only its identity matters here). -/
structure Link where
  linkName : String
deriving DecidableEq, Repr

/-- Function attachVIP (networking.go lines 146-154) with the outcome of the
`netlink.LinkByName("lo")` lookup and of the `netlink.AddrAdd` call
made explicit: a failed lookup is returned; the result of `AddrAdd` is
discarded and `nil` returned. -/
def attachVIP (lookupLo : Except String Link)
    (addResult : Except String Unit) : Except String Unit :=
  match lookupLo with
  | Except.error e => Except.error e
  | Except.ok _ =>
      let _ := addResult
      Except.ok ()

/-- Function detachVIP (networking.go lines 156-164): same shape as
`attachVIP`, with `netlink.AddrDel` in place of `netlink.AddrAdd`; the
`AddrDel` result is discarded. -/
def detachVIP (lookupLo : Except String Link)
    (delResult : Except String Unit) : Except String Unit :=
  match lookupLo with
  | Except.error e => Except.error e
  | Except.ok _ =>
      let _ := delResult
      Except.ok ()

/-! ## Helper predicates on events -/

/-- Recognizes a pool acquisition event of the capture loop. -/
def isAcquire : LEvent → Bool
  | LEvent.acquire => true
  | _ => false

/-- Recognizes an enqueue event of the capture loop. -/
def isEnqueueEvent : LEvent → Bool
  | LEvent.enqueue _ => true
  | _ => false

/-- Recognizes an invocation of the shutdown procedure. -/
def isShutdownInvoke : LEvent → Bool
  | LEvent.invokeShutdown => true
  | _ => false

/-- Recognizes a pool release event of a relay worker. -/
def isRelease : WEvent → Bool
  | WEvent.release => true
  | _ => false

/-- Recognizes a raw transmit event of a relay worker. -/
def isTransmit : WEvent → Bool
  | WEvent.transmit _ => true
  | _ => false

/-- Recognizes an outbound control-session line. -/
def isSendLine : Effect → Bool
  | Effect.sendLine _ => true
  | _ => false

/-- Number of pool.Get calls of a listen run (one per iteration entered). -/
def listenAcquireCount (reads : List (Option Nat)) : Nat :=
  (listenTrace reads).countP isAcquire

/-- Number of pool.Put calls across the whole pipeline for a `listen` run:
every buffer enqueued on `c.packets` is dequeued by exactly one relay
worker, which releases it exactly once (`handlePacketsStep`); a buffer
held by `listen` when a read fails is never released. -/
def pipelineReleaseCount (reads : List (Option Nat)) : Nat :=
  (listenTrace reads).countP isEnqueueEvent

/-! ## Two concurrent invocations of `gracefulStop`
(networking.go lines 197-208)

`gracefulStop` touches the shared state in separately executed
operations: reading `c.state` in the guard, writing it inside
`deregister`, the `WriteLine` of `DEREGISTER`, the two closes, the
`detachVIP` attempt, and `os.Exit(0)`. Two loops may invoke it
concurrently; the interleaving of those atomic operations is modelled
by a schedule picking which invocation performs its next operation. -/

/-- Shared system for two concurrent `gracefulStop` invocations:
the shared lifecycle state, each invocation's program counter and the
locally cached result of its `c.state != Deregistering` guard read,
the number of `DEREGISTER` sends and of VIP detachment attempts
performed so far, and whether `os.Exit(0)` already ran (which stops
both invocations). -/
structure StopSys where
  st : ClientState
  pc1 : Nat
  r1 : Bool
  pc2 : Nat
  r2 : Bool
  sends : Nat
  detaches : Nat
  halted : Bool
deriving DecidableEq, Repr

/-- One atomic operation of a `gracefulStop` invocation whose program
counter is `pc` and whose cached guard read is `r`, acting on the
shared part of the system: 0 reads the guard, 1 writes
`Deregistering` (only if the guard was true), 2 sends `DEREGISTER`
(only if the guard was true), 3 and 4 close the two handles, 5
attempts VIP detachment, 6 is `os.Exit(0)`. Steps 1 and 2 of an
invocation whose guard read false are the skipped `deregister` body.
Returns the updated shared system, program counter and cached read. -/
def execStop (pc : Nat) (r : Bool) (s : StopSys) : StopSys × Nat × Bool :=
  match pc with
  | 0 => (s, 1, decide (s.st ≠ Deregistering))
  | 1 => (if r then { s with st := Deregistering } else s, 2, r)
  | 2 => (if r then { s with sends := s.sends + 1 } else s, 3, r)
  | 3 => (s, 4, r)
  | 4 => (s, 5, r)
  | 5 => ({ s with detaches := s.detaches + 1 }, 6, r)
  | 6 => ({ s with halted := true }, 7, r)
  | _ => (s, pc, r)

/-- Scheduler step: invocation 1 (`t = true`) or 2 (`t = false`)
performs its next atomic operation, unless the process has already
terminated. -/
def stopStep (t : Bool) (s : StopSys) : StopSys :=
  if s.halted then s
  else if t then
    let (s2, pc, r) := execStop s.pc1 s.r1 s
    { s2 with pc1 := pc, r1 := r }
  else
    let (s2, pc, r) := execStop s.pc2 s.r2 s
    { s2 with pc2 := pc, r2 := r }

/-- Run a schedule of interleaved atomic operations. -/
def runStop (sched : List Bool) (s : StopSys) : StopSys :=
  match sched with
  | [] => s
  | t :: rest => runStop rest (stopStep t s)

/-- Both invocations start at their guard read, in state `Active`,
with nothing sent, nothing detached and the process alive. -/
def stopInit : StopSys :=
  { st := Active, pc1 := 0, r1 := false, pc2 := 0, r2 := false,
    sends := 0, detaches := 0, halted := false }

/-- Number of DEREGISTER sends already performed by an invocation at program
counter `pc` whose guard read was `r`: one exactly when it passed its
send step with a true guard. -/
def sentBy (pc : Nat) (r : Bool) : Nat :=
  if 3 ≤ pc ∧ r = true then 1 else 0

/-- VIP detachment attempts already performed by an invocation at
program counter `pc`: one exactly when it passed its detach step. -/
def detachedBy (pc : Nat) : Nat :=
  if 6 ≤ pc then 1 else 0

/-- Invariant tying the shared counters to the two program counters:
program counters stay at most 7, and the send and detach counters are
the sums of each invocation's contribution. -/
def StopInv (s : StopSys) : Prop :=
  s.pc1 ≤ 7 ∧ s.pc2 ≤ 7 ∧
    s.sends = sentBy s.pc1 s.r1 + sentBy s.pc2 s.r2 ∧
    s.detaches = detachedBy s.pc1 + detachedBy s.pc2

/-- A schedule interleaving the two guard reads before either
invocation's state write: invocation 1 reads the guard, invocation 2
reads the guard, then each runs on through its detach attempt. -/
def racySched : List Bool :=
  [true, false, true, true, true, true, true,
   false, false, false, false, false]

/-- A serialized schedule: invocation 1 runs from its guard read
through `os.Exit(0)` before invocation 2 performs anything. -/
def serialSched : List Bool :=
  List.replicate 7 true

/-! ## Theorems -/

/-- C1: the shutdown procedure `gracefulStop` performs exactly the
sequence of the spec: if the state is not already `Deregistering` it
first sends one `DEREGISTER <name>` line (via `deregister`, which also
sets the state to `Deregistering`); then it closes the control
session, closes the capture handle, attempts VIP detachment, logs any
in-flight failure, and terminates the process (the last effect is
`os.Exit(0)`). If the state is already `Deregistering` on entry, no
line is sent at all. -/
theorem gracefulStop_shutdown_sequence (s : ClientState) (name : String)
    (inFlight : Bool) :
    (gracefulStop s name inFlight).1 = Deregistering ∧
    (s ≠ Deregistering →
      (gracefulStop s name inFlight).2 =
        Effect.sendLine ("DEREGISTER " ++ name) ::
          ([Effect.closeComm, Effect.closeData, Effect.detachAttempt] ++
            (if inFlight then [Effect.logRecovered] else []) ++
            [Effect.exitProcess])) ∧
    (s = Deregistering →
      (gracefulStop s name inFlight).2 =
        [Effect.closeComm, Effect.closeData, Effect.detachAttempt] ++
          (if inFlight then [Effect.logRecovered] else []) ++
          [Effect.exitProcess] ∧
      ((gracefulStop s name inFlight).2.countP isSendLine) = 0) ∧
    (gracefulStop s name inFlight).2.getLast? = some Effect.exitProcess := by
  refine ⟨?_, ?_, ?_, ?_⟩ <;>
    cases s <;> cases inFlight <;>
      simp [gracefulStop, deregister, isSendLine, List.countP_cons]

/-- Witness for C1 at concrete inputs. -/
theorem gracefulStop_shutdown_sequence_witness :
    (gracefulStop Active "n" false).2 =
      Effect.sendLine ("DEREGISTER " ++ "n") ::
        ([Effect.closeComm, Effect.closeData, Effect.detachAttempt] ++
          (if false then [Effect.logRecovered] else []) ++
          [Effect.exitProcess]) ∧
    ((gracefulStop Deregistering "n" false).2.countP isSendLine) = 0 :=
  ⟨(gracefulStop_shutdown_sequence Active "n" false).2.1 (by decide),
   ((gracefulStop_shutdown_sequence Deregistering "n" false).2.2.1 rfl).2⟩

/-- C6: `pause` on an already-`Paused` client fails locally and sends
nothing, otherwise it sends exactly `PAUSE <name>`; `resume` on an
already-`Active` client fails locally and sends nothing, otherwise it
sends exactly `RESUME <name>`; neither writes the state; `deregister`
sets the state to `Deregistering` and sends `DEREGISTER <name>`. -/
theorem pause_resume_deregister_behavior (s : ClientState) (name : String)
    (w : Except String Unit) :
    (s = Paused → pause s name w =
      (s, Except.error "cannot pause an already paused client", [])) ∧
    (s ≠ Paused → pause s name w =
      (s, w, [Effect.sendLine ("PAUSE " ++ name)])) ∧
    (s = Active → resume s name w =
      (s, Except.error "cannot resume an already active client", [])) ∧
    (s ≠ Active → resume s name w =
      (s, w, [Effect.sendLine ("RESUME " ++ name)])) ∧
    (pause s name w).1 = s ∧ (resume s name w).1 = s ∧
    deregister name =
      (Deregistering, [Effect.sendLine ("DEREGISTER " ++ name)]) := by
  refine ⟨?_, ?_, ?_, ?_, ?_, ?_, rfl⟩ <;>
    cases s <;> simp [pause, resume]

/-- Witness for C6 at concrete inputs. -/
theorem pause_resume_deregister_behavior_witness :
    pause Paused "n" (Except.ok ()) =
      (Paused, Except.error "cannot pause an already paused client", []) ∧
    resume Paused "n" (Except.ok ()) =
      (Paused, Except.ok (), [Effect.sendLine ("RESUME " ++ "n")]) :=
  ⟨(pause_resume_deregister_behavior Paused "n" (Except.ok ())).1 rfl,
   (pause_resume_deregister_behavior Paused "n" (Except.ok ())).2.2.2.1
     (by decide)⟩

/-- C7: a relay worker iteration transmits exactly the first `size`
bytes of the dequeued buffer's payload (one transmit, no retry) and
releases the buffer back to the pool exactly once whether the transmit
succeeded or failed; on failure the iteration just logs a warning. -/
theorem handlePackets_transmit_release (p : rawPacket) (ok : Bool) :
    (handlePacketsStep p ok).filterMap (fun e => match e with
      | WEvent.transmit bs => some bs
      | _ => none) = [p.payload.take p.size] ∧
    (handlePacketsStep p ok).countP isRelease = 1 ∧
    (handlePacketsStep p ok).countP isTransmit = 1 ∧
    handlePacketsStep p false =
      [WEvent.transmit (p.payload.take p.size), WEvent.logWarn,
        WEvent.release] := by
  refine ⟨?_, ?_, ?_, ?_⟩ <;>
    cases ok <;>
      simp [handlePacketsStep, isRelease, isTransmit, List.countP_cons]

/-- C9: `attachVIP` returns an error exactly when the loopback lookup
fails; the result of the address-addition call is discarded, so every
addition outcome (success or failure) yields `nil` once the lookup
succeeded; `detachVIP` behaves the same with the address-removal
call. -/
theorem attachVIP_detachVIP_discard_result :
    (∀ (lo : Link) (r : Except String Unit),
      attachVIP (Except.ok lo) r = Except.ok ()) ∧
    (∀ (e : String) (r : Except String Unit),
      attachVIP (Except.error e) r = Except.error e) ∧
    (∀ (lo : Link) (r : Except String Unit),
      detachVIP (Except.ok lo) r = Except.ok ()) ∧
    (∀ (e : String) (r : Except String Unit),
      detachVIP (Except.error e) r = Except.error e) :=
  ⟨fun _ _ => rfl, fun _ _ => rfl, fun _ _ => rfl, fun _ _ => rfl⟩

/-- C10: worker startup panics exactly when the VIP is not
representable as IPv4 (`To4` returns `nil`); when the VIP is IPv4 the
panic branch is not taken and the per-worker destination is built from
the first four bytes of the VIP's stored representation. -/
theorem handlePackets_requires_ipv4 (vip : List Nat) :
    (ipTo4 vip = none →
      handlePacketsInit vip = Except.error "vip is not ipv4") ∧
    (ipTo4 vip ≠ none →
      handlePacketsInit vip = Except.ok (vip.take 4)) := by
  constructor
  · intro h
    simp [handlePacketsInit, h]
  · intro h
    rcases hh : ipTo4 vip with _ | v
    · exact absurd hh h
    · simp [handlePacketsInit, hh]

/-- Witness for C10 at concrete inputs. -/
theorem handlePackets_requires_ipv4_witness :
    handlePacketsInit [10, 0, 0, 1] = Except.ok ([10, 0, 0, 1].take 4) ∧
    handlePacketsInit [10, 0] = Except.error "vip is not ipv4" :=
  ⟨(handlePackets_requires_ipv4 [10, 0, 0, 1]).2 (by decide),
   (handlePackets_requires_ipv4 [10, 0]).1 (by decide)⟩

/-- C4 counterexample: on the capture loop's read-error exit path the
claim fails. A run whose only iteration hits a read error acquires one
buffer from the pool but the pipeline releases none — the buffer held
by `listen` when `ReadFrom` fails is neither enqueued nor put back, so
release is not called exactly once per acquire. -/
theorem listen_read_error_loses_buffer :
    ¬ (listenAcquireCount [Option.none] =
        pipelineReleaseCount [Option.none]) := by decide

/-- C4 amended: every buffer the capture loop successfully fills and
enqueues is released exactly once by the relay workers (and never
double-released), but the buffer acquired for a failing read is never
released: over any run, the number of acquires equals the number of
releases plus one exactly when the run ends in a read error, and
equals the number of releases otherwise. -/
theorem listen_release_accounting (reads : List (Option Nat)) :
    pipelineReleaseCount reads +
      (if endsInReadError reads then 1 else 0) =
      listenAcquireCount reads := by
  induction reads with
  | nil =>
      simp [pipelineReleaseCount, listenAcquireCount, listenTrace,
        endsInReadError, isAcquire, isEnqueueEvent]
  | cons a rest ih =>
      cases a with
      | none =>
          simp [pipelineReleaseCount, listenAcquireCount, listenTrace,
            endsInReadError, isAcquire, isEnqueueEvent, List.countP_cons]
      | some n =>
          simp only [pipelineReleaseCount, listenAcquireCount, listenTrace,
            endsInReadError, isAcquire, isEnqueueEvent,
            List.countP_cons] at *
          omega

/-- C5 counterexample: when the blocking raw read fails, `listen` does
not invoke the shutdown procedure — its trace on a failing read is
acquire, read, return-the-error, with no shutdown invocation; the
error is merely returned to the caller. -/
theorem listen_read_error_no_shutdown :
    ¬ (0 < (listenTrace [Option.none]).countP isShutdownInvoke) ∧
    listenTrace [Option.none] =
      [LEvent.acquire, LEvent.rawRead, LEvent.returnError] := by decide

/-- C5 amended: if the blocking raw read fails, the capture loop stops
immediately without retrying (no later iteration runs whatever read
outcomes would have followed) and returns the error to its caller; the
loop itself never invokes the shutdown procedure on any run. -/
theorem listen_read_error_returns_to_caller :
    (∀ reads : List (Option Nat),
      (listenTrace reads).countP isShutdownInvoke = 0) ∧
    (∀ rest : List (Option Nat),
      listenTrace (Option.none :: rest) =
        [LEvent.acquire, LEvent.rawRead, LEvent.returnError] ∧
      endsInReadError (Option.none :: rest) = true) := by
  constructor
  · intro reads
    induction reads with
    | nil => decide
    | cons a rest ih =>
        cases a <;> simp [listenTrace, List.countP_cons, isShutdownInvoke, ih]
  · intro rest
    exact ⟨rfl, rfl⟩

/-- C3: for every line the control reader processes while the state is
`Active` or `Paused`, the effect is exactly the directive table: first
token `PAUSED` sets the state to `Paused`, `RESUMED` sets it to
`Active`, `DEREGISTERED` sets it to `Deregistering` and invokes the
shutdown procedure ending the loop; any other first token (including
`INVALID`, `HEALTHACK` with or without a status code, the empty line
and unrecognized directives) leaves the state unchanged and does not
end the loop. -/
theorem manageBalancerConnection_directives (s : ClientState) (msg : String)
    (_hs : s = Active ∨ s = Paused) :
    (firstToken msg = "PAUSED" → processMessage s msg = (Paused, false)) ∧
    (firstToken msg = "RESUMED" → processMessage s msg = (Active, false)) ∧
    (firstToken msg = "DEREGISTERED" →
      processMessage s msg = (Deregistering, true)) ∧
    (firstToken msg ≠ "PAUSED" → firstToken msg ≠ "RESUMED" →
      firstToken msg ≠ "DEREGISTERED" → processMessage s msg = (s, false)) ∧
    processMessage s "" = (s, false) := by
  have hsplit : ∀ m : String, firstToken m = (tokenize m).headD "" :=
    fun _ => rfl
  refine ⟨?_, ?_, ?_, ?_, ?_⟩
  case _ =>
    intro h
    rw [hsplit] at h
    rcases htk : tokenize msg with _ | ⟨t, rest⟩ <;>
      rw [htk] at h <;> simp_all [processMessage]
  case _ =>
    intro h
    rw [hsplit] at h
    rcases htk : tokenize msg with _ | ⟨t, rest⟩ <;>
      rw [htk] at h <;> simp_all [processMessage]
  case _ =>
    intro h
    rw [hsplit] at h
    rcases htk : tokenize msg with _ | ⟨t, rest⟩ <;>
      rw [htk] at h <;> simp_all [processMessage]
  case _ =>
    intro h1 h2 h3
    rw [hsplit] at h1 h2 h3
    rcases htk : tokenize msg with _ | ⟨t, rest⟩ <;>
      rw [htk] at h1 h2 h3
    · simp [processMessage, htk]
    · simp only [List.headD_cons] at h1 h2 h3
      simp only [processMessage, htk, List.length_cons, List.headD_cons]
      split_ifs <;> simp_all
  case _ =>
    have he : tokenize "" = [""] := rfl
    simp [processMessage, he]

/-- Witness for C3 at concrete inputs. -/
theorem manageBalancerConnection_directives_witness :
    processMessage Active "PAUSED" = (Paused, false) ∧
    processMessage Paused "RESUMED" = (Active, false) ∧
    processMessage Active "DEREGISTERED" = (Deregistering, true) ∧
    processMessage Active "HEALTHACK 200" = (Active, false) :=
  ⟨(manageBalancerConnection_directives Active "PAUSED" (Or.inl rfl)).1
      (by decide),
   (manageBalancerConnection_directives Paused "RESUMED" (Or.inr rfl)).2.1
      (by decide),
   (manageBalancerConnection_directives Active "DEREGISTERED"
      (Or.inl rfl)).2.2.1 (by decide),
   (manageBalancerConnection_directives Active "HEALTHACK 200"
      (Or.inl rfl)).2.2.2.1 (by decide) (by decide) (by decide)⟩

/-- Closed form of the inner address scan: if some address of the
device matches, the accumulator is set (when empty), kept (when it
already names this device) or the scan aborts with the ambiguity
error; otherwise the accumulator passes through unchanged. -/
theorem scanAddresses_eq (target : Nat) (name : String)
    (addrs : List DevAddress) (found : String) :
    scanAddresses target name found addrs =
      if addrs.any (fun a => addrContains a target) then
        (if found = "" then Except.ok name
         else if found = name then Except.ok found
         else Except.error ambiguousMsg)
      else Except.ok found := by
  induction addrs generalizing found with
  | nil => simp [scanAddresses]
  | cons a rest ih =>
      by_cases hc : addrContains a target
      · by_cases hf : found = ""
        · subst hf
          have step : scanAddresses target name "" (a :: rest) =
              scanAddresses target name name rest := by
            simp [scanAddresses, hc]
          rw [step, ih name]
          by_cases hn : name = "" <;>
            by_cases hr : rest.any (fun a => addrContains a target) <;>
              simp [hn, hr, List.any_cons, hc]
        · by_cases he : found = name
          · have step : scanAddresses target name found (a :: rest) =
                scanAddresses target name found rest := by
              simp [scanAddresses, hc, hf, he]
            rw [step, ih found]
            by_cases hr : rest.any (fun a => addrContains a target) <;>
              simp [hr, List.any_cons, hc, hf, he]
          · have step : scanAddresses target name found (a :: rest) =
                Except.error ambiguousMsg := by
              simp [scanAddresses, hc, hf, he]
            rw [step]
            simp [List.any_cons, hc, hf, he]
      · have step : scanAddresses target name found (a :: rest) =
            scanAddresses target name found rest := by
          simp [scanAddresses, hc]
        rw [step, ih found]
        simp [List.any_cons, hc]

/-- Closed form of the device loop when the accumulator already names
a device: the loop succeeds with that device exactly when every
remaining matching device has the same name, and aborts with the
ambiguity error otherwise. -/
theorem findLoop_acc (target : Nat) (found : String) (hf : found ≠ "")
    (ds : List Device) :
    findLoop target found ds =
      if ((ds.filter (devMatches target)).map Device.name).all
          (fun m => m == found)
      then Except.ok found else Except.error ambiguousMsg := by
  induction ds with
  | nil => simp [findLoop, hf]
  | cons d rest ih =>
      have hstep : findLoop target found (d :: rest) =
          match scanAddresses target d.name found d.addresses with
          | Except.error e => Except.error e
          | Except.ok f => findLoop target f rest := rfl
      rw [hstep, scanAddresses_eq]
      by_cases hm : devMatches target d
      · have hm2 : (d.addresses.any fun a => addrContains a target) = true :=
          hm
        rw [if_pos hm2, if_neg hf]
        have hfil : List.filter (devMatches target) (d :: rest) =
            d :: List.filter (devMatches target) rest := by simp [hm]
        by_cases he : found = d.name
        · subst he
          rw [if_pos rfl]
          show findLoop target d.name rest = _
          rw [ih, hfil]
          simp only [List.map_cons, List.all_cons, beq_self_eq_true,
            Bool.true_and]
        · rw [if_neg he]
          show Except.error ambiguousMsg = _
          have hdn : ¬ d.name = found := fun h => he h.symm
          rw [hfil]
          simp [hdn]
      · have hm2 : (d.addresses.any fun a => addrContains a target) = false :=
          by simpa [devMatches] using hm
        rw [if_neg (by simp [hm2])]
        show findLoop target found rest = _
        rw [ih]
        have hfil : List.filter (devMatches target) (d :: rest) =
            List.filter (devMatches target) rest := by simp [hm]
        rw [hfil]

/-- The device loop started with an empty accumulator implements the
spec-worded policy `specFindDevice`, provided every device name is
nonempty (as the names of real pcap devices are; the empty string is
the loop's internal not-yet-found sentinel). -/
theorem findLoop_start (target : Nat) (ds : List Device)
    (hn : ∀ d ∈ ds, d.name ≠ "") :
    findLoop target "" ds = specFindDevice target ds := by
  induction ds with
  | nil => rfl
  | cons d rest ih =>
      have hd : d.name ≠ "" := hn d (List.mem_cons_self d rest)
      have hrest : ∀ x ∈ rest, x.name ≠ "" :=
        fun x hx => hn x (List.mem_cons_of_mem d hx)
      have hstep : findLoop target "" (d :: rest) =
          match scanAddresses target d.name "" d.addresses with
          | Except.error e => Except.error e
          | Except.ok f => findLoop target f rest := rfl
      rw [hstep, scanAddresses_eq]
      by_cases hm : devMatches target d
      · have hm2 : (d.addresses.any fun a => addrContains a target) = true :=
          hm
        rw [if_pos hm2, if_pos rfl]
        show findLoop target d.name rest = _
        rw [findLoop_acc target d.name hd rest]
        have hfil : List.filter (devMatches target) (d :: rest) =
            d :: List.filter (devMatches target) rest := by simp [hm]
        simp only [specFindDevice, hfil, List.map_cons]
      · have hm2 : (d.addresses.any fun a => addrContains a target) = false :=
          by simpa [devMatches] using hm
        rw [if_neg (by simp [hm2])]
        show findLoop target "" rest = _
        rw [ih hrest]
        have hfil : List.filter (devMatches target) (d :: rest) =
            List.filter (devMatches target) rest := by simp [hm]
        simp only [specFindDevice, hfil]

/-- C2: provided every locally known interface has a nonempty name,
`findDevice` implements exactly the resolution policy: it equals the
spec-worded `specFindDevice`, hence it fails with the
no-matching-device error when no interface subnet contains the target,
returns the interface when all matching addresses belong to one
interface, and fails with the ambiguous-device error when the matches
name more than one distinct interface. -/
theorem findDevice_policy (target : Nat) (devices : List Device)
    (hn : ∀ d ∈ devices, d.name ≠ "") :
    findDevice target devices = specFindDevice target devices ∧
    ((devices.filter (devMatches target)).map Device.name = [] →
      findDevice target devices = Except.error noMatchMsg) ∧
    (∀ (n : String) (ms : List String),
      (devices.filter (devMatches target)).map Device.name = n :: ms →
      (ms.all (fun m => m == n) = true →
        findDevice target devices = Except.ok n) ∧
      (ms.all (fun m => m == n) = false →
        findDevice target devices = Except.error ambiguousMsg)) := by
  have hmain : findDevice target devices = specFindDevice target devices :=
    findLoop_start target devices hn
  refine ⟨hmain, ?_, ?_⟩
  · intro hnil
    rw [hmain]
    simp [specFindDevice, hnil]
  · intro n ms hcons
    constructor
    · intro hall
      rw [hmain]
      simp [specFindDevice, hcons, hall]
    · intro hnall
      rw [hmain]
      simp [specFindDevice, hcons, hnall]

/-- Witness for C2 at a concrete interface set: two distinct matching
interfaces yield the ambiguity error, and a single matching interface
is returned. -/
theorem findDevice_policy_witness :
    findDevice 5 [Device.mk "eth0" [DevAddress.mk 0 0],
        Device.mk "eth1" [DevAddress.mk 0 0]] =
      specFindDevice 5 [Device.mk "eth0" [DevAddress.mk 0 0],
        Device.mk "eth1" [DevAddress.mk 0 0]] ∧
    findDevice 7 [Device.mk "eth2" [DevAddress.mk 0 0]] = Except.ok "eth2" :=
  ⟨(findDevice_policy 5 [Device.mk "eth0" [DevAddress.mk 0 0],
      Device.mk "eth1" [DevAddress.mk 0 0]] (by decide)).1,
   ((findDevice_policy 7 [Device.mk "eth2" [DevAddress.mk 0 0]]
      (by decide)).2.2 "eth2" [] (by decide)).1 (by decide)⟩

/-- Running a concatenated schedule runs the two parts in order. -/
theorem runStop_append (a b : List Bool) (s : StopSys) :
    runStop (a ++ b) s = runStop b (runStop a s) := by
  induction a generalizing s with
  | nil => rfl
  | cons t rest ih => simp [runStop, ih]

/-- Once the process has terminated, no further scheduled operation
changes anything. -/
theorem runStop_halted (sched : List Bool) (s : StopSys)
    (h : s.halted = true) : runStop sched s = s := by
  induction sched with
  | nil => rfl
  | cons t rest ih => simp [runStop, stopStep, h, ih]

/-- Each atomic operation preserves the counter invariant `StopInv`. -/
theorem stopStep_inv (t : Bool) (s : StopSys) (h : StopInv s) :
    StopInv (stopStep t s) := by
  obtain ⟨st, pc1, r1, pc2, r2, sends, det, halted⟩ := s
  obtain ⟨hb1, hb2, hsend, hdet⟩ := h
  simp only at hb1 hb2 hsend hdet
  by_cases hh : halted = true
  · simp [stopStep, StopInv, hh, hb1, hb2, hsend, hdet]
  · have hh2 : halted = false := by simpa using hh
    subst hh2
    cases t
    · refine ⟨?_, ?_, ?_, ?_⟩ <;>
        · simp only [stopStep, execStop, Bool.false_eq_true, if_false,
            sentBy, detachedBy] at *
          interval_cases pc2 <;> cases r2 <;> simp_all [sentBy, detachedBy,
            execStop]
    · refine ⟨?_, ?_, ?_, ?_⟩ <;>
        · simp only [stopStep, execStop, Bool.false_eq_true, if_false,
            sentBy, detachedBy] at *
          interval_cases pc1 <;> cases r1 <;> simp_all [sentBy, detachedBy,
            execStop] <;> omega

/-- The counter invariant holds after any schedule from the initial
system. -/
theorem runStop_inv (sched : List Bool) (s : StopSys) (h : StopInv s) :
    StopInv (runStop sched s) := by
  induction sched generalizing s with
  | nil => exact h
  | cons t rest ih => exact ih _ (stopStep_inv t s h)

/-- C8 counterexample: with the guard-read of `gracefulStop` not atomic
with the state write of `deregister`, an interleaving in which both
concurrent invocations read the guard before either writes the state
sends `DEREGISTER` twice and attempts VIP detachment twice — not
exactly once as claimed. -/
theorem gracefulStop_concurrent_not_once :
    ¬ ((runStop racySched stopInit).sends = 1 ∧
        (runStop racySched stopInit).detaches = 1) ∧
    (runStop racySched stopInit).sends = 2 ∧
    (runStop racySched stopInit).detaches = 2 := by decide

/-- C8 amended: each concurrent invocation of `gracefulStop` sends at
most one `DEREGISTER` and attempts at most one VIP detachment, so two
concurrent invocations produce at most two of each under every
interleaving (two of each are reachable when the guard reads
interleave before the state writes); and in any serialized execution,
where one invocation runs to its `os.Exit(0)` before the other starts,
exactly one `DEREGISTER` is sent and exactly one detachment attempted,
and the other invocation never runs. -/
theorem gracefulStop_concurrent_bounds :
    (∀ sched : List Bool, (runStop sched stopInit).sends ≤ 2 ∧
      (runStop sched stopInit).detaches ≤ 2) ∧
    (∀ rest : List Bool,
      (runStop (serialSched ++ rest) stopInit).sends = 1 ∧
      (runStop (serialSched ++ rest) stopInit).detaches = 1 ∧
      (runStop (serialSched ++ rest) stopInit).halted = true) := by
  constructor
  · intro sched
    have hinv : StopInv (runStop sched stopInit) :=
      runStop_inv sched stopInit (by unfold StopInv; decide)
    obtain ⟨_, _, hs, hd⟩ := hinv
    constructor
    · rw [hs]
      unfold sentBy
      split_ifs <;> omega
    · rw [hd]
      unfold detachedBy
      split_ifs <;> omega
  · intro rest
    have hser : runStop serialSched stopInit =
        { st := Deregistering, pc1 := 7, r1 := true, pc2 := 0, r2 := false,
          sends := 1, detaches := 1, halted := true } := by decide
    rw [runStop_append, hser, runStop_halted rest _ rfl]
    exact ⟨rfl, rfl, rfl⟩

end Caplance
